import Mathlib

/-!
Shallow embedding of the CouchDB Go client's document codec, view-query
encoder and error classifier, together with proofs checking the
specification's claims against these definitions.

Modelling conventions:
* Go's `map[string]interface{}` is modelled as an association list
  `List (String × JsonValue)`; Go map assignment `m[k] = v` is `mapInsert`,
  Go map read is `mapLookup`, and the (order-nondeterministic) Go map
  iteration in `UnmarshalJSON` is a left fold over the wire list.
* Go `interface{}` values that hold decoded JSON are the tagged union
  `JsonValue`; `encoding/json`'s `json.Marshal` of such a value is
  `jsonRender` (control-character escaping, which no claim touches, is
  elided from the string escaper).
* An HTTP request assembled through resty is the record `Request`:
  method, path, accumulated query parameters in call order, optional body.
-/

namespace CouchDBSpec

/-- A decoded JSON value: Go's `interface{}` after `encoding/json` decoding
(`nil`, `bool`, number, `string`, `[]interface{}`, `map[string]interface{}`).
Numbers are modelled as integers, which covers every numeric key the
specification discusses. -/
inductive JsonValue where
  | null : JsonValue
  | bool (b : Bool) : JsonValue
  | num (n : Int) : JsonValue
  | str (s : String) : JsonValue
  | arr (xs : List JsonValue) : JsonValue
  | obj (kvs : List (String × JsonValue)) : JsonValue

/-- Go type assertion `v.(string)` succeeds. -/
def JsonValue.isStr : JsonValue → Bool
  | JsonValue.str _ => true
  | _ => false

/-- Go type assertion `v.(bool)` succeeds. -/
def JsonValue.isBool : JsonValue → Bool
  | JsonValue.bool _ => true
  | _ => false

/-- JSON string escaping of one character (quote and backslash; control
character escapes are elided, no claim depends on them). -/
def jsonEscapeChar (c : Char) : String :=
  if c = '\\' then "\\\\" else if c = '"' then "\\\"" else String.singleton c

/-- JSON string escaping, as applied by `json.Marshal` to Go strings. -/
def jsonEscape (s : String) : String :=
  String.join (s.toList.map jsonEscapeChar)

mutual

/-- `json.Marshal` of a decoded JSON value, as a wire string. -/
def jsonRender : JsonValue → String
  | JsonValue.null => "null"
  | JsonValue.bool b => cond b "true" "false"
  | JsonValue.num n => toString n
  | JsonValue.str s => "\"" ++ jsonEscape s ++ "\""
  | JsonValue.arr xs => "[" ++ jsonRenderArr xs ++ "]"
  | JsonValue.obj kvs => "\x7b" ++ jsonRenderObj kvs ++ "\x7d"

/-- Comma-separated rendering of a JSON array's elements. -/
def jsonRenderArr : List JsonValue → String
  | [] => ""
  | [x] => jsonRender x
  | x :: y :: xs => jsonRender x ++ "," ++ jsonRenderArr (y :: xs)

/-- Comma-separated rendering of a JSON object's members. -/
def jsonRenderObj : List (String × JsonValue) → String
  | [] => ""
  | [(k, v)] => "\"" ++ jsonEscape k ++ "\":" ++ jsonRender v
  | (k, v) :: p :: kvs =>
      "\"" ++ jsonEscape k ++ "\":" ++ jsonRender v ++ "," ++ jsonRenderObj (p :: kvs)

end

mutual

/-- Go `fmt.Sprintf("%v", x)` for a decoded JSON value: strings print raw
(no quotes), numbers as digits, slices bracketed and space-separated. -/
def goFmtV : JsonValue → String
  | JsonValue.null => "<nil>"
  | JsonValue.bool b => cond b "true" "false"
  | JsonValue.num n => toString n
  | JsonValue.str s => s
  | JsonValue.arr xs => "[" ++ goFmtVArr xs ++ "]"
  | JsonValue.obj kvs => "map[" ++ goFmtVObj kvs ++ "]"

/-- Space-separated `%v` rendering of slice elements. -/
def goFmtVArr : List JsonValue → String
  | [] => ""
  | [x] => goFmtV x
  | x :: y :: xs => goFmtV x ++ " " ++ goFmtVArr (y :: xs)

/-- Space-separated `%v` rendering of map entries. -/
def goFmtVObj : List (String × JsonValue) → String
  | [] => ""
  | [(k, v)] => k ++ ":" ++ goFmtV v
  | (k, v) :: p :: kvs => k ++ ":" ++ goFmtV v ++ " " ++ goFmtVObj (p :: kvs)

end

/-- The three reserved document keys handled specially by the codec. -/
def reservedKeys : List String := ["_id", "_rev", "_deleted"]

/-- Go map read `m[k]` (first matching entry of the association list). -/
def mapLookup {α : Type} (k : String) : List (String × α) → Option α
  | [] => none
  | (k₁, v) :: rest => if k₁ = k then some v else mapLookup k rest

/-- Go map assignment `m[k] = v`: replace the entry if the key is present,
otherwise add a new entry. -/
def mapInsert {α : Type} (m : List (String × α)) (k : String) (v : α) :
    List (String × α) :=
  if k ∈ m.map Prod.fst then
    m.map (fun p => (p.1, if p.1 = k then v else p.2))
  else m ++ [(k, v)]

/-- `Document`: dedicated attributes `ID`, `Rev`, `Deleted` plus the
arbitrary user payload `Data` (Go zero values as defaults). -/
structure Document where
  id : String := ""
  rev : String := ""
  deleted : Bool := false
  data : List (String × JsonValue) := []

/-- `Document.MarshalJSON`: copy `Data` into a fresh map, then write the
reserved keys, each only when its attribute is non-zero. -/
def Document.MarshalJSON (d : Document) : List (String × JsonValue) :=
  let doc := d.data.foldl (fun m p => mapInsert m p.1 p.2) []
  let doc := if d.id ≠ "" then mapInsert doc "_id" (JsonValue.str d.id) else doc
  let doc := if d.rev ≠ "" then mapInsert doc "_rev" (JsonValue.str d.rev) else doc
  let doc := if d.deleted then mapInsert doc "_deleted" (JsonValue.bool d.deleted) else doc
  doc

/-- One iteration of `Document.UnmarshalJSON`'s loop over the decoded wire
map: reserved keys are hoisted into the attributes when the type assertion
succeeds (and dropped otherwise); all other keys go into `Data`. -/
def unmarshalStep (d : Document) (p : String × JsonValue) : Document :=
  if p.1 = "_id" then
    match p.2 with
    | JsonValue.str s => { d with id := s }
    | _ => d
  else if p.1 = "_rev" then
    match p.2 with
    | JsonValue.str s => { d with rev := s }
    | _ => d
  else if p.1 = "_deleted" then
    match p.2 with
    | JsonValue.bool b => { d with deleted := b }
    | _ => d
  else
    { d with data := mapInsert d.data p.1 p.2 }

/-- `Document.UnmarshalJSON` on receiver `d`: reset `Data` to an empty map,
then process every entry of the decoded wire object. -/
def Document.UnmarshalJSON (d : Document) (wire : List (String × JsonValue)) :
    Document :=
  wire.foldl unmarshalStep { d with data := [] }

/-- Decoding a wire payload into a fresh (zero-valued) `Document`, as
`SetResult(&doc)` does. -/
def decodeDoc (wire : List (String × JsonValue)) : Document :=
  Document.UnmarshalJSON {} wire

/-- The payload map mentions no reserved key. -/
def noReservedKeys (m : List (String × JsonValue)) : Bool :=
  m.all (fun p => decide (p.1 ∉ reservedKeys))

/-- The wire object has an entry under `key` whose value passes the type
assertion `ok`. -/
def hasWellTyped (key : String) (ok : JsonValue → Bool)
    (wire : List (String × JsonValue)) : Bool :=
  wire.any (fun p => p.1 == key && ok p.2)

/-- `ViewOptions` with Go zero values as defaults; `interface{}` fields are
`Option JsonValue` (`none` = Go `nil`), the `Keys` slice is a list (`[]` =
Go `nil`/empty slice), and `Reduce *bool` is `Option Bool`. -/
structure ViewOptions where
  key : Option JsonValue := none
  keys : List JsonValue := []
  startKey : Option JsonValue := none
  endKey : Option JsonValue := none
  startKeyDocID : String := ""
  endKeyDocID : String := ""
  limit : Int := 0
  skip : Int := 0
  descending : Bool := false
  inclusiveEnd : Bool := false
  group : Bool := false
  groupLevel : Int := 0
  reduce : Option Bool := none
  includeDocs : Bool := false
  updateSeq : Bool := false
  conflicts : Bool := false
  attachments : Bool := false
  attEncodingInfo : Bool := false
  stale : String := ""
  update : String := ""

/-- HTTP methods used by the client. -/
inductive HttpMethod where
  | GET : HttpMethod
  | POST : HttpMethod
  | PUT : HttpMethod
  | DELETE : HttpMethod
deriving DecidableEq

/-- The observable shape of one resty request: method, path, query
parameters in the order the `SetQueryParam` calls run, and optional body. -/
structure Request where
  method : HttpMethod
  path : String
  params : List (String × String)
  body : Option JsonValue := none

/-- Go `fmt.Sprintf("%d", n)`. -/
def intStr (n : Int) : String := toString n

/-- Go `fmt.Sprintf("%t", b)`. -/
def boolStr (b : Bool) : String := cond b "true" "false"

/-- One guarded `SetQueryParam(name, value)` call: the parameter appears
exactly when the guard holds (`if opts.X \x7b ... \x7d` in the source). -/
def flagSeg (c : Prop) [Decidable c] (name value : String) :
    List (String × String) :=
  if c then [(name, value)] else []

/-- One nil-guarded `SetQueryParam(name, f value)` call on an
`interface{}` option (`if opts.X != nil \x7b ... \x7d` in the source). -/
def optSeg {β : Type} (name : String) (f : β → String) :
    Option β → List (String × String)
  | some x => [(name, f x)]
  | none => []

/-- The query parameters `Database.View` accumulates from its options, in
source order: structured key options are `json.Marshal`ed, scalar options
appear only when positive, boolean options only when true, enumeration
strings only when non-empty. -/
def viewParams (o : ViewOptions) : List (String × String) :=
  optSeg "key" jsonRender o.key ++
  flagSeg (0 < o.keys.length) "keys" (jsonRender (JsonValue.arr o.keys)) ++
  optSeg "startkey" jsonRender o.startKey ++
  optSeg "endkey" jsonRender o.endKey ++
  flagSeg (o.startKeyDocID ≠ "") "startkey_docid" o.startKeyDocID ++
  flagSeg (o.endKeyDocID ≠ "") "endkey_docid" o.endKeyDocID ++
  flagSeg (0 < o.limit) "limit" (intStr o.limit) ++
  flagSeg (0 < o.skip) "skip" (intStr o.skip) ++
  flagSeg (o.descending = true) "descending" "true" ++
  flagSeg (o.inclusiveEnd = true) "inclusive_end" "true" ++
  flagSeg (o.group = true) "group" "true" ++
  flagSeg (0 < o.groupLevel) "group_level" (intStr o.groupLevel) ++
  optSeg "reduce" boolStr o.reduce ++
  flagSeg (o.includeDocs = true) "include_docs" "true" ++
  flagSeg (o.updateSeq = true) "update_seq" "true" ++
  flagSeg (o.conflicts = true) "conflicts" "true" ++
  flagSeg (o.attachments = true) "attachments" "true" ++
  flagSeg (o.attEncodingInfo = true) "att_encoding_info" "true" ++
  flagSeg (o.stale ≠ "") "stale" o.stale ++
  flagSeg (o.update ≠ "") "update" o.update

/-- `Database.View`: a GET of the view path carrying only query
parameters, never a body (`opts == nil` contributes nothing). -/
def viewRequest (dbName designDoc viewName : String)
    (opts : Option ViewOptions) : Request :=
  { method := HttpMethod.GET
    path := "/" ++ dbName ++ "/_design/" ++ designDoc ++ "/_view/" ++ viewName
    params := match opts with
      | some o => viewParams o
      | none => []
    body := none }

/-- The reduced option subset `Database.ViewWithKeys` forwards as query
parameters. -/
def viewWithKeysParams (o : ViewOptions) : List (String × String) :=
  flagSeg (o.includeDocs = true) "include_docs" "true" ++
  flagSeg (0 < o.limit) "limit" (intStr o.limit) ++
  flagSeg (0 < o.skip) "skip" (intStr o.skip) ++
  flagSeg (o.descending = true) "descending" "true" ++
  flagSeg (o.group = true) "group" "true" ++
  flagSeg (0 < o.groupLevel) "group_level" (intStr o.groupLevel) ++
  optSeg "reduce" boolStr o.reduce

/-- `Database.ViewWithKeys`: a POST of the view path whose body is the
object `keys: [...]`. -/
def viewWithKeysRequest (dbName designDoc viewName : String)
    (keys : List JsonValue) (opts : Option ViewOptions) : Request :=
  { method := HttpMethod.POST
    path := "/" ++ dbName ++ "/_design/" ++ designDoc ++ "/_view/" ++ viewName
    params := match opts with
      | some o => viewWithKeysParams o
      | none => []
    body := some (JsonValue.obj [("keys", JsonValue.arr keys)]) }

/-- The query parameters `Database.AllDocs` accumulates; note the source
formats `StartKey`/`EndKey` with `fmt.Sprintf("%v", ...)`, not
`json.Marshal`. -/
def allDocsParams (o : ViewOptions) : List (String × String) :=
  flagSeg (o.includeDocs = true) "include_docs" "true" ++
  flagSeg (0 < o.limit) "limit" (intStr o.limit) ++
  flagSeg (0 < o.skip) "skip" (intStr o.skip) ++
  flagSeg (o.descending = true) "descending" "true" ++
  optSeg "startkey" goFmtV o.startKey ++
  optSeg "endkey" goFmtV o.endKey

/-- `Database.AllDocs`: a GET of `/{db}/_all_docs`. -/
def allDocsRequest (dbName : String) (opts : Option ViewOptions) : Request :=
  { method := HttpMethod.GET
    path := "/" ++ dbName ++ "/_all_docs"
    params := match opts with
      | some o => allDocsParams o
      | none => []
    body := none }

/-- `BulkDocs`: the `_bulk_docs` body record (`new_edits` tagged
`omitempty`). -/
structure BulkDocs where
  docs : List JsonValue
  newEdits : Bool := false

/-- Marshalling of `BulkDocs` under its JSON tags: `docs` always,
`new_edits` dropped at its zero value `false`. -/
def bulkDocsMarshal (b : BulkDocs) : JsonValue :=
  JsonValue.obj
    ([("docs", JsonValue.arr b.docs)] ++
      (if b.newEdits then [("new_edits", JsonValue.bool b.newEdits)] else []))

/-- `Database.Bulk`: POST `/{db}/_bulk_docs` with body
`BulkDocs{Docs: docs}` (so `NewEdits` keeps its zero value). -/
def bulkRequest (dbName : String) (docs : List JsonValue) : Request :=
  { method := HttpMethod.POST
    path := "/" ++ dbName ++ "/_bulk_docs"
    params := []
    body := some (bulkDocsMarshal { docs := docs }) }

/-- The `ViewOptions` assembled by `Database.ViewReduce`: `Reduce` forced
to `true`, then either `GroupLevel` (when positive) or plain `Group`. -/
def viewReduceOptions (groupLevel : Int) : ViewOptions :=
  let opts : ViewOptions := { reduce := some true }
  if 0 < groupLevel then { opts with groupLevel := groupLevel }
  else { opts with group := true }

/-- `ViewBuilder`: target identifiers plus the owned option set. -/
structure ViewBuilder where
  designDoc : String
  viewName : String
  options : ViewOptions

/-- `Database.NewViewQuery`. -/
def NewViewQuery (designDoc viewName : String) : ViewBuilder :=
  { designDoc := designDoc, viewName := viewName, options := {} }

/-- `ViewBuilder.Key`. -/
def ViewBuilder.Key (vb : ViewBuilder) (key : Option JsonValue) : ViewBuilder :=
  { vb with options := { vb.options with key := key } }

/-- `ViewBuilder.Keys`. -/
def ViewBuilder.Keys (vb : ViewBuilder) (keys : List JsonValue) : ViewBuilder :=
  { vb with options := { vb.options with keys := keys } }

/-- `ViewBuilder.StartKey`. -/
def ViewBuilder.StartKey (vb : ViewBuilder) (key : Option JsonValue) : ViewBuilder :=
  { vb with options := { vb.options with startKey := key } }

/-- `ViewBuilder.EndKey`. -/
def ViewBuilder.EndKey (vb : ViewBuilder) (key : Option JsonValue) : ViewBuilder :=
  { vb with options := { vb.options with endKey := key } }

/-- `ViewBuilder.Limit`. -/
def ViewBuilder.Limit (vb : ViewBuilder) (limit : Int) : ViewBuilder :=
  { vb with options := { vb.options with limit := limit } }

/-- `ViewBuilder.Skip`. -/
def ViewBuilder.Skip (vb : ViewBuilder) (skip : Int) : ViewBuilder :=
  { vb with options := { vb.options with skip := skip } }

/-- `ViewBuilder.Descending`. -/
def ViewBuilder.Descending (vb : ViewBuilder) (desc : Bool) : ViewBuilder :=
  { vb with options := { vb.options with descending := desc } }

/-- `ViewBuilder.Group`. -/
def ViewBuilder.Group (vb : ViewBuilder) (group : Bool) : ViewBuilder :=
  { vb with options := { vb.options with group := group } }

/-- `ViewBuilder.GroupLevel`. -/
def ViewBuilder.GroupLevel (vb : ViewBuilder) (level : Int) : ViewBuilder :=
  { vb with options := { vb.options with groupLevel := level } }

/-- `ViewBuilder.Reduce` (stores a pointer to the given bool). -/
def ViewBuilder.Reduce (vb : ViewBuilder) (reduce : Bool) : ViewBuilder :=
  { vb with options := { vb.options with reduce := some reduce } }

/-- `ViewBuilder.IncludeDocs`. -/
def ViewBuilder.IncludeDocs (vb : ViewBuilder) (include_ : Bool) : ViewBuilder :=
  { vb with options := { vb.options with includeDocs := include_ } }

/-- `ViewBuilder.Stale`. -/
def ViewBuilder.Stale (vb : ViewBuilder) (stale : String) : ViewBuilder :=
  { vb with options := { vb.options with stale := stale } }

/-- `ViewBuilder.Execute` hands the accumulated options to
`Database.View`. -/
def ViewBuilder.Execute (vb : ViewBuilder) (dbName : String) : Request :=
  viewRequest dbName vb.designDoc vb.viewName (some vb.options)

/-- The body of a failure response as `json.Unmarshal` into `Error` sees
it: either it decodes as a structured error record (yielding the record's
`error` and `reason` strings, `""` when a member is missing), or it is not
valid structured JSON and unmarshalling fails, leaving the raw text. -/
inductive ErrorBody where
  | structured (kind reason : String) : ErrorBody
  | invalid (raw : String) : ErrorBody

/-- What `parseError` reads from a completed resty response: status code
and body bytes. -/
structure RestyResponse where
  statusCode : Nat
  body : ErrorBody

/-- The `Error` record: status code plus the structured `error`/`reason`
members. -/
structure Error where
  statusCode : Nat
  errType : String
  reason : String

/-- `Client.parseError`: attach the status code, then either take
`error`/`reason` from the structured body or fall back to kind `unknown`
with the raw body text as reason. -/
def parseError (resp : RestyResponse) : Error :=
  match resp.body with
  | ErrorBody.structured k r =>
      { statusCode := resp.statusCode, errType := k, reason := r }
  | ErrorBody.invalid raw =>
      { statusCode := resp.statusCode, errType := "unknown", reason := raw }

section MapLemmas

variable {α : Type}

theorem mapLookup_nil (k : String) : mapLookup (α := α) k [] = none := rfl

theorem mapLookup_append (k : String) (l₁ l₂ : List (String × α)) :
    mapLookup k (l₁ ++ l₂) =
      match mapLookup k l₁ with
      | some v => some v
      | none => mapLookup k l₂ := by
  induction l₁ with
  | nil => simp [mapLookup]
  | cons p t ih =>
      obtain ⟨k₁, v⟩ := p
      by_cases h : k₁ = k <;> simp [mapLookup, h, ih]

theorem mapLookup_eq_none_of_not_mem {k : String} {m : List (String × α)}
    (h : k ∉ m.map Prod.fst) : mapLookup k m = none := by
  induction m with
  | nil => rfl
  | cons p t ih =>
      obtain ⟨k₁, v₁⟩ := p
      simp only [List.map_cons, List.mem_cons, not_or] at h
      have hk : k₁ ≠ k := fun hh => h.1 hh.symm
      simp [mapLookup, hk, ih h.2]

theorem mapInsert_of_not_mem {k : String} {m : List (String × α)} (v : α)
    (h : k ∉ m.map Prod.fst) : mapInsert m k v = m ++ [(k, v)] := by
  simp [mapInsert, h]

theorem mapLookup_replace_self {k : String} (v : α) {m : List (String × α)}
    (h : k ∈ m.map Prod.fst) :
    mapLookup k (m.map (fun p => (p.1, if p.1 = k then v else p.2))) = some v := by
  induction m with
  | nil => simp at h
  | cons p t ih =>
      obtain ⟨k₁, v₁⟩ := p
      by_cases hk : k₁ = k
      · simp [mapLookup, hk]
      · simp only [List.map_cons, List.mem_cons] at h
        rcases h with h | h
        · exact absurd h.symm hk
        · simp [mapLookup, hk, ih h]

theorem mapLookup_replace_ne {k k' : String} (v : α) (m : List (String × α))
    (h : k' ≠ k) :
    mapLookup k' (m.map (fun p => (p.1, if p.1 = k then v else p.2))) =
      mapLookup k' m := by
  induction m with
  | nil => rfl
  | cons p t ih =>
      obtain ⟨k₁, v₁⟩ := p
      by_cases hk' : k₁ = k'
      · subst hk'
        have hne : k₁ ≠ k := fun hh => h (hh ▸ rfl)
        simp [mapLookup, hne, ih]
      · simp [mapLookup, hk', ih]

theorem mapLookup_insert_self (m : List (String × α)) (k : String) (v : α) :
    mapLookup k (mapInsert m k v) = some v := by
  by_cases h : k ∈ m.map Prod.fst
  · simp [mapInsert, h, mapLookup_replace_self v h]
  · rw [mapInsert_of_not_mem v h, mapLookup_append,
      mapLookup_eq_none_of_not_mem h]
    simp [mapLookup]

theorem mapLookup_insert_ne (m : List (String × α)) {k k' : String} (v : α)
    (h : k' ≠ k) : mapLookup k' (mapInsert m k v) = mapLookup k' m := by
  by_cases hm : k ∈ m.map Prod.fst
  · simp [mapInsert, hm, mapLookup_replace_ne v m h]
  · rw [mapInsert_of_not_mem v hm, mapLookup_append]
    cases hl : mapLookup k' m <;> simp [mapLookup, Ne.symm h]

end MapLemmas

section CodecLemmas

theorem foldl_mapInsert_of_nodup :
    ∀ (l acc : List (String × JsonValue)),
      (acc.map Prod.fst ++ l.map Prod.fst).Nodup →
      l.foldl (fun m p => mapInsert m p.1 p.2) acc = acc ++ l := by
  intro l
  induction l with
  | nil => intro acc _; simp
  | cons p t ih =>
      intro acc h
      obtain ⟨k, v⟩ := p
      have hperm : (acc.map Prod.fst ++ (k :: t.map Prod.fst)).Perm
          ((acc.map Prod.fst ++ [k]) ++ t.map Prod.fst) := by
        simp only [List.append_assoc, List.singleton_append]
        exact List.Perm.refl _
      have hk : k ∉ acc.map Prod.fst := by
        intro hmem
        exact List.disjoint_of_nodup_append h hmem (List.mem_cons_self _ _)
      have step : mapInsert acc k v = acc ++ [(k, v)] :=
        mapInsert_of_not_mem v hk
      have hnd' : ((acc ++ [(k, v)]).map Prod.fst ++ t.map Prod.fst).Nodup := by
        simp only [List.map_append, List.map_cons, List.map_nil,
          List.append_assoc, List.singleton_append]
        simpa using h
      calc ((k, v) :: t).foldl (fun m p => mapInsert m p.1 p.2) acc
          = t.foldl (fun m p => mapInsert m p.1 p.2) (acc ++ [(k, v)]) := by
            rw [List.foldl_cons, step]
        _ = (acc ++ [(k, v)]) ++ t := ih _ hnd'
        _ = acc ++ ((k, v) :: t) := by simp

theorem reserved_not_key {m : List (String × JsonValue)}
    (hres : ∀ p ∈ m, p.1 ∉ reservedKeys) {r : String} (hr : r ∈ reservedKeys) :
    r ∉ m.map Prod.fst := by
  intro hmem
  obtain ⟨p, hp, hpf⟩ := List.mem_map.1 hmem
  exact hres p hp (by rw [hpf]; exact hr)

theorem unmarshalStep_of_not_reserved (d : Document) (p : String × JsonValue)
    (h : p.1 ∉ reservedKeys) :
    unmarshalStep d p = { d with data := mapInsert d.data p.1 p.2 } := by
  obtain ⟨k, v⟩ := p
  simp only [reservedKeys, List.mem_cons, List.not_mem_nil, or_false, not_or] at h
  simp [unmarshalStep, h.1, h.2.1, h.2.2]

theorem unmarshalStep_data_of_reserved (d : Document) (p : String × JsonValue)
    (h : p.1 ∈ reservedKeys) : (unmarshalStep d p).data = d.data := by
  obtain ⟨k, v⟩ := p
  simp only [reservedKeys, List.mem_cons, List.not_mem_nil, or_false] at h
  rcases h with h | h | h <;> subst h <;> cases v <;> rfl

theorem unmarshalStep_id_eq (d : Document) (p : String × JsonValue)
    (h : p.1 = "_id" → p.2.isStr = false) : (unmarshalStep d p).id = d.id := by
  obtain ⟨k, v⟩ := p
  by_cases hk : k = "_id"
  · subst hk
    cases v with
    | str s => exact absurd (h rfl) (by simp [JsonValue.isStr])
    | null => rfl
    | bool b => rfl
    | num n => rfl
    | arr xs => rfl
    | obj kvs => rfl
  · by_cases hr : k = "_rev"
    · subst hr; cases v <;> rfl
    · by_cases hd : k = "_deleted"
      · subst hd; cases v <;> rfl
      · simp [unmarshalStep, hk, hr, hd]

theorem unmarshalStep_rev_eq (d : Document) (p : String × JsonValue)
    (h : p.1 = "_rev" → p.2.isStr = false) : (unmarshalStep d p).rev = d.rev := by
  obtain ⟨k, v⟩ := p
  by_cases hk : k = "_id"
  · subst hk; cases v <;> rfl
  · by_cases hr : k = "_rev"
    · subst hr
      cases v with
      | str s => exact absurd (h rfl) (by simp [JsonValue.isStr])
      | null => simp [unmarshalStep, hk]
      | bool b => simp [unmarshalStep, hk]
      | num n => simp [unmarshalStep, hk]
      | arr xs => simp [unmarshalStep, hk]
      | obj kvs => simp [unmarshalStep, hk]
    · by_cases hd : k = "_deleted"
      · subst hd; cases v <;> rfl
      · simp [unmarshalStep, hk, hr, hd]

theorem unmarshalStep_deleted_eq (d : Document) (p : String × JsonValue)
    (h : p.1 = "_deleted" → p.2.isBool = false) :
    (unmarshalStep d p).deleted = d.deleted := by
  obtain ⟨k, v⟩ := p
  by_cases hk : k = "_id"
  · subst hk; cases v <;> rfl
  · by_cases hr : k = "_rev"
    · subst hr; cases v <;> rfl
    · by_cases hd : k = "_deleted"
      · subst hd
        cases v with
        | bool b => exact absurd (h rfl) (by simp [JsonValue.isBool])
        | null => simp [unmarshalStep, hk, hr]
        | str s => simp [unmarshalStep, hk, hr]
        | num n => simp [unmarshalStep, hk, hr]
        | arr xs => simp [unmarshalStep, hk, hr]
        | obj kvs => simp [unmarshalStep, hk, hr]
      · simp [unmarshalStep, hk, hr, hd]

theorem hasWellTyped_cons_false {key : String} {ok : JsonValue → Bool}
    {p : String × JsonValue} {t : List (String × JsonValue)}
    (h : hasWellTyped key ok (p :: t) = false) :
    (p.1 = key → ok p.2 = false) ∧ hasWellTyped key ok t = false := by
  simp only [hasWellTyped, List.any_cons, Bool.or_eq_false_iff,
    Bool.and_eq_false_iff] at h
  refine ⟨?_, h.2⟩
  intro hk
  rcases h.1 with h1 | h1
  · rw [hk] at h1; simp at h1
  · exact h1

theorem foldl_id_eq (l : List (String × JsonValue)) (d : Document)
    (h : hasWellTyped "_id" JsonValue.isStr l = false) :
    (l.foldl unmarshalStep d).id = d.id := by
  induction l generalizing d with
  | nil => rfl
  | cons p t ih =>
      obtain ⟨h1, h2⟩ := hasWellTyped_cons_false h
      rw [List.foldl_cons, ih _ h2, unmarshalStep_id_eq d p h1]

theorem foldl_rev_eq (l : List (String × JsonValue)) (d : Document)
    (h : hasWellTyped "_rev" JsonValue.isStr l = false) :
    (l.foldl unmarshalStep d).rev = d.rev := by
  induction l generalizing d with
  | nil => rfl
  | cons p t ih =>
      obtain ⟨h1, h2⟩ := hasWellTyped_cons_false h
      rw [List.foldl_cons, ih _ h2, unmarshalStep_rev_eq d p h1]

theorem foldl_deleted_eq (l : List (String × JsonValue)) (d : Document)
    (h : hasWellTyped "_deleted" JsonValue.isBool l = false) :
    (l.foldl unmarshalStep d).deleted = d.deleted := by
  induction l generalizing d with
  | nil => rfl
  | cons p t ih =>
      obtain ⟨h1, h2⟩ := hasWellTyped_cons_false h
      rw [List.foldl_cons, ih _ h2, unmarshalStep_deleted_eq d p h1]

theorem foldl_data_reserved (l : List (String × JsonValue)) (d : Document)
    (hd : ∀ k ∈ reservedKeys, mapLookup k d.data = none) :
    ∀ k ∈ reservedKeys, mapLookup k (l.foldl unmarshalStep d).data = none := by
  induction l generalizing d with
  | nil => exact hd
  | cons p t ih =>
      intro k hk
      rw [List.foldl_cons]
      refine ih _ ?_ k hk
      intro k' hk'
      by_cases hres : p.1 ∈ reservedKeys
      · rw [unmarshalStep_data_of_reserved d p hres]; exact hd k' hk'
      · rw [unmarshalStep_of_not_reserved d p hres]
        have hne : k' ≠ p.1 := fun hh => hres (hh ▸ hk')
        simp only []
        rw [mapLookup_insert_ne _ _ hne]
        exact hd k' hk'

theorem foldl_unmarshalStep_nonreserved
    (l : List (String × JsonValue)) (d : Document)
    (h : ∀ p ∈ l, p.1 ∉ reservedKeys) :
    l.foldl unmarshalStep d =
      { d with data := l.foldl (fun m p => mapInsert m p.1 p.2) d.data } := by
  induction l generalizing d with
  | nil => simp
  | cons p t ih =>
      rw [List.foldl_cons, List.foldl_cons,
        unmarshalStep_of_not_reserved d p (h p (List.mem_cons_self p t)),
        ih _ (fun q hq => h q (List.mem_cons_of_mem p hq))]

theorem mem_reserved_id : "_id" ∈ reservedKeys := by simp [reservedKeys]

theorem mem_reserved_rev : "_rev" ∈ reservedKeys := by simp [reservedKeys]

theorem mem_reserved_deleted : "_deleted" ∈ reservedKeys := by simp [reservedKeys]

theorem mapInsert_guard {α : Type} (c : Prop) [Decidable c]
    (m : List (String × α)) (k : String) (v : α) (h : k ∉ m.map Prod.fst) :
    (if c then mapInsert m k v else m) = m ++ (if c then [(k, v)] else []) := by
  split <;> simp [mapInsert_of_not_mem _ h]

theorem mapLookup_guard_ne {α : Type} (c : Prop) [Decidable c]
    (m : List (String × α)) {k k' : String} (v : α) (h : k' ≠ k) :
    mapLookup k' (if c then mapInsert m k v else m) = mapLookup k' m := by
  split
  · exact mapLookup_insert_ne m v h
  · rfl

theorem noReservedKeys_spec {m : List (String × JsonValue)}
    (h : noReservedKeys m = true) : ∀ p ∈ m, p.1 ∉ reservedKeys := by
  intro p hp
  exact of_decide_eq_true (List.all_eq_true.1 h p hp)

/-- The encoded form of a document whose payload avoids the reserved keys:
the payload entries followed by the conditionally present reserved
entries. -/
theorem MarshalJSON_eq (d : Document)
    (hres : ∀ p ∈ d.data, p.1 ∉ reservedKeys)
    (hnd : (d.data.map Prod.fst).Nodup) :
    d.MarshalJSON = d.data
      ++ (if d.id ≠ "" then [("_id", JsonValue.str d.id)] else [])
      ++ (if d.rev ≠ "" then [("_rev", JsonValue.str d.rev)] else [])
      ++ (if d.deleted then [("_deleted", JsonValue.bool d.deleted)] else []) := by
  have h0 : d.data.foldl (fun m p => mapInsert m p.1 p.2) [] = d.data := by
    have := foldl_mapInsert_of_nodup d.data []
    simpa using this (by simpa using hnd)
  have hid : "_id" ∉ d.data.map Prod.fst := reserved_not_key hres mem_reserved_id
  have hrev : "_rev" ∉ d.data.map Prod.fst := reserved_not_key hres mem_reserved_rev
  have hdel : "_deleted" ∉ d.data.map Prod.fst :=
    reserved_not_key hres mem_reserved_deleted
  have hrev2 : "_rev" ∉ (d.data ++
      (if d.id ≠ "" then [("_id", JsonValue.str d.id)] else [])).map Prod.fst := by
    simp only [List.map_append, List.mem_append, not_or]
    exact ⟨hrev, by split <;> simp⟩
  have hdel3 : "_deleted" ∉ ((d.data ++
      (if d.id ≠ "" then [("_id", JsonValue.str d.id)] else [])) ++
      (if d.rev ≠ "" then [("_rev", JsonValue.str d.rev)] else [])).map Prod.fst := by
    simp only [List.map_append, List.mem_append, not_or]
    exact ⟨⟨hdel, by split <;> simp⟩, by split <;> simp⟩
  simp only [Document.MarshalJSON]
  rw [h0, mapInsert_guard _ d.data "_id" (JsonValue.str d.id) hid,
    mapInsert_guard _ _ "_rev" (JsonValue.str d.rev) hrev2,
    mapInsert_guard _ _ "_deleted" (JsonValue.bool d.deleted) hdel3]

/-- Decoding the encoded form of a well-formed document gives the document
back, component for component. -/
theorem decode_encode (d : Document)
    (h1 : noReservedKeys d.data = true)
    (h2 : (d.data.map Prod.fst).Nodup) :
    decodeDoc d.MarshalJSON = d := by
  have hres := noReservedKeys_spec h1
  have henc := MarshalJSON_eq d hres h2
  have h0 : d.data.foldl (fun m p => mapInsert m p.1 p.2) [] = d.data := by
    have := foldl_mapInsert_of_nodup d.data []
    simpa using this (by simpa using h2)
  rw [decodeDoc, Document.UnmarshalJSON, henc]
  rw [List.foldl_append, List.foldl_append, List.foldl_append]
  have hA : d.data.foldl unmarshalStep { ({} : Document) with data := [] } =
      { id := "", rev := "", deleted := false, data := d.data } := by
    rw [foldl_unmarshalStep_nonreserved _ _ hres]
    simp [h0]
  rw [hA]
  have hB : (if d.id ≠ "" then [("_id", JsonValue.str d.id)] else []).foldl
      unmarshalStep { id := "", rev := "", deleted := false, data := d.data } =
      { id := d.id, rev := "", deleted := false, data := d.data } := by
    by_cases hi : d.id = ""
    · simp [hi]
    · simp only [hi, ne_eq, not_false_iff, if_pos, ite_true, List.foldl_cons,
        List.foldl_nil]
      rfl
  rw [hB]
  have hC : (if d.rev ≠ "" then [("_rev", JsonValue.str d.rev)] else []).foldl
      unmarshalStep { id := d.id, rev := "", deleted := false, data := d.data } =
      { id := d.id, rev := d.rev, deleted := false, data := d.data } := by
    by_cases hr : d.rev = ""
    · simp [hr]
    · simp only [hr, ne_eq, not_false_iff, if_pos, ite_true, List.foldl_cons,
        List.foldl_nil]
      rfl
  rw [hC]
  have hD : (if d.deleted then [("_deleted", JsonValue.bool d.deleted)] else []).foldl
      unmarshalStep { id := d.id, rev := d.rev, deleted := false, data := d.data } =
      { id := d.id, rev := d.rev, deleted := d.deleted, data := d.data } := by
    by_cases hb : d.deleted
    · simp only [hb, ite_true, List.foldl_cons, List.foldl_nil]
      rfl
    · simp [hb]
  rw [hD]

theorem hasWellTyped_eq_false_of_not_mem {key : String} {ok : JsonValue → Bool}
    {l : List (String × JsonValue)} (h : key ∉ l.map Prod.fst) :
    hasWellTyped key ok l = false := by
  induction l with
  | nil => rfl
  | cons p t ih =>
      simp only [List.map_cons, List.mem_cons, not_or] at h
      have hb : (p.1 == key) = false :=
        beq_eq_false_iff_ne.2 (fun hh => h.1 hh.symm)
      show (hasWellTyped key ok (p :: t)) = false
      simp only [hasWellTyped, List.any_cons, hb, Bool.false_and, Bool.false_or]
      exact ih h.2

theorem foldl_id_of_mem (l : List (String × JsonValue)) (d : Document)
    (s : String) (hnd : (l.map Prod.fst).Nodup)
    (hmem : ("_id", JsonValue.str s) ∈ l) :
    (l.foldl unmarshalStep d).id = s := by
  induction l generalizing d with
  | nil => simp at hmem
  | cons p t ih =>
      simp only [List.map_cons, List.nodup_cons] at hnd
      rcases List.mem_cons.1 hmem with heq | hmem'
      · subst heq
        rw [List.foldl_cons,
          show unmarshalStep d ("_id", JsonValue.str s) = { d with id := s }
            from rfl]
        exact foldl_id_eq t _
          (hasWellTyped_eq_false_of_not_mem (by simpa using hnd.1))
      · rw [List.foldl_cons]
        exact ih _ hnd.2 hmem'

theorem foldl_rev_of_mem (l : List (String × JsonValue)) (d : Document)
    (s : String) (hnd : (l.map Prod.fst).Nodup)
    (hmem : ("_rev", JsonValue.str s) ∈ l) :
    (l.foldl unmarshalStep d).rev = s := by
  induction l generalizing d with
  | nil => simp at hmem
  | cons p t ih =>
      simp only [List.map_cons, List.nodup_cons] at hnd
      rcases List.mem_cons.1 hmem with heq | hmem'
      · subst heq
        rw [List.foldl_cons,
          show unmarshalStep d ("_rev", JsonValue.str s) = { d with rev := s }
            from rfl]
        exact foldl_rev_eq t _
          (hasWellTyped_eq_false_of_not_mem (by simpa using hnd.1))
      · rw [List.foldl_cons]
        exact ih _ hnd.2 hmem'

theorem foldl_deleted_of_mem (l : List (String × JsonValue)) (d : Document)
    (b : Bool) (hnd : (l.map Prod.fst).Nodup)
    (hmem : ("_deleted", JsonValue.bool b) ∈ l) :
    (l.foldl unmarshalStep d).deleted = b := by
  induction l generalizing d with
  | nil => simp at hmem
  | cons p t ih =>
      simp only [List.map_cons, List.nodup_cons] at hnd
      rcases List.mem_cons.1 hmem with heq | hmem'
      · subst heq
        rw [List.foldl_cons,
          show unmarshalStep d ("_deleted", JsonValue.bool b) =
            { d with deleted := b } from rfl]
        exact foldl_deleted_eq t _
          (hasWellTyped_eq_false_of_not_mem (by simpa using hnd.1))
      · rw [List.foldl_cons]
        exact ih _ hnd.2 hmem'

end CodecLemmas

/-- A concrete document exercising the round trip: nested array, object,
number, boolean and null values under non-reserved keys. -/
def rtDoc : Document :=
  { id := "x1"
    rev := "1-abc"
    deleted := true
    data := [("name", JsonValue.str "Ann"),
             ("age", JsonValue.num 30),
             ("tags", JsonValue.arr [JsonValue.str "a", JsonValue.null]),
             ("meta", JsonValue.obj [("ok", JsonValue.bool true)])] }

/-- C1: for every document whose payload map avoids the reserved keys
(and, being a map, has no duplicate keys), decoding the output of
`MarshalJSON` reproduces the document: same `ID`, `Rev`, `Deleted`, and a
`Data` map equal to the original as a key-value mapping, value shapes
preserved. -/
theorem claim_C1_round_trip (d : Document) (k : String)
    (h1 : noReservedKeys d.data = true)
    (h2 : (d.data.map Prod.fst).Nodup) :
    (decodeDoc d.MarshalJSON).id = d.id ∧
    (decodeDoc d.MarshalJSON).rev = d.rev ∧
    (decodeDoc d.MarshalJSON).deleted = d.deleted ∧
    (decodeDoc d.MarshalJSON).data = d.data ∧
    mapLookup k (decodeDoc d.MarshalJSON).data = mapLookup k d.data := by
  rw [decode_encode d h1 h2]
  exact ⟨rfl, rfl, rfl, rfl, rfl⟩

/-- Witness for C1 at the concrete document `rtDoc`. -/
theorem claim_C1_round_trip_witness :
    noReservedKeys rtDoc.data = true ∧
    (rtDoc.data.map Prod.fst).Nodup ∧
    (decodeDoc rtDoc.MarshalJSON).id = rtDoc.id ∧
    (decodeDoc rtDoc.MarshalJSON).rev = rtDoc.rev ∧
    (decodeDoc rtDoc.MarshalJSON).deleted = rtDoc.deleted ∧
    (decodeDoc rtDoc.MarshalJSON).data = rtDoc.data ∧
    mapLookup "name" (decodeDoc rtDoc.MarshalJSON).data =
      mapLookup "name" rtDoc.data :=
  ⟨by decide, by decide, claim_C1_round_trip rtDoc "name" (by decide) (by decide)⟩

/-- A document trying to smuggle `"_id"` through `Data` while its dedicated
`ID` attribute is at its zero value. -/
def smuggleDoc : Document :=
  { data := [("_id", JsonValue.str "smuggled")] }

/-- C3, counterexample: with `ID = ""` the encoder skips the reserved-key
write, so the smuggled `Data` value survives under `"_id"` in the output —
the reserved attribute does not win for every value of the attribute. -/
theorem claim_C3_counterexample :
    smuggleDoc.id = "" ∧
    mapLookup "_id" smuggleDoc.MarshalJSON = some (JsonValue.str "smuggled") ∧
    some (JsonValue.str smuggleDoc.id) ≠ some (JsonValue.str "smuggled") := by
  refine ⟨rfl, rfl, ?_⟩
  intro h
  have h2 := Option.some.inj h
  have h3 : smuggleDoc.id = "smuggled" := JsonValue.str.inj h2
  exact absurd h3 (by decide)

/-- C3, amended: whenever the dedicated attribute is non-zero (`ID ≠ ""`,
`Rev ≠ ""`, `Deleted = true`), the value under the corresponding reserved
key in the output of `MarshalJSON` is that attribute, never a value
smuggled through `Data` — because the reserved-key writes run after the
payload copy. -/
theorem claim_C3_reserved_key_priority (d : Document) :
    (d.id ≠ "" → mapLookup "_id" d.MarshalJSON = some (JsonValue.str d.id)) ∧
    (d.rev ≠ "" → mapLookup "_rev" d.MarshalJSON = some (JsonValue.str d.rev)) ∧
    (d.deleted = true →
      mapLookup "_deleted" d.MarshalJSON = some (JsonValue.bool true)) := by
  refine ⟨fun h => ?_, fun h => ?_, fun h => ?_⟩
  · simp only [Document.MarshalJSON]
    rw [mapLookup_guard_ne _ _ _ (show "_id" ≠ "_deleted" by decide),
      mapLookup_guard_ne _ _ _ (show "_id" ≠ "_rev" by decide),
      if_pos h, mapLookup_insert_self]
  · simp only [Document.MarshalJSON]
    rw [mapLookup_guard_ne _ _ _ (show "_rev" ≠ "_deleted" by decide),
      if_pos h, mapLookup_insert_self]
  · simp only [Document.MarshalJSON, h, ite_true, mapLookup_insert_self]

/-- A document with non-zero attributes and all three reserved keys
smuggled into `Data`. -/
def smuggleDoc2 : Document :=
  { id := "I"
    rev := "R"
    deleted := true
    data := [("_id", JsonValue.str "bad-id"),
             ("_rev", JsonValue.num 3),
             ("_deleted", JsonValue.bool false)] }

/-- Witness for the amended C3 at `smuggleDoc2`. -/
theorem claim_C3_reserved_key_priority_witness :
    mapLookup "_id" smuggleDoc2.MarshalJSON = some (JsonValue.str "I") ∧
    mapLookup "_rev" smuggleDoc2.MarshalJSON = some (JsonValue.str "R") ∧
    mapLookup "_deleted" smuggleDoc2.MarshalJSON = some (JsonValue.bool true) :=
  ⟨(claim_C3_reserved_key_priority smuggleDoc2).1 (by decide),
   (claim_C3_reserved_key_priority smuggleDoc2).2.1 (by decide),
   (claim_C3_reserved_key_priority smuggleDoc2).2.2 rfl⟩

/-- C5: `parseError` always attaches the response's status code; a body
that decodes as a structured error record contributes its kind and reason,
and a body that is not valid structured JSON yields kind `"unknown"` with
the raw body text as reason — every failure response produces a usable
error value. -/
theorem claim_C5_error_fallback (resp : RestyResponse) (code : Nat)
    (kind reason raw : String) :
    (parseError resp).statusCode = resp.statusCode ∧
    parseError { statusCode := code, body := ErrorBody.structured kind reason } =
      { statusCode := code, errType := kind, reason := reason } ∧
    parseError { statusCode := code, body := ErrorBody.invalid raw } =
      { statusCode := code, errType := "unknown", reason := raw } := by
  refine ⟨?_, rfl, rfl⟩
  cases hb : resp.body <;> simp [parseError, hb]

/-- C6: decoded documents never carry a reserved key in `Data`; a reserved
key whose value fails the type assertion is treated as absent (the
attribute keeps its zero value), and a correctly-typed reserved key is
hoisted into the corresponding attribute. -/
theorem claim_C6_reserved_hoisting (wire : List (String × JsonValue))
    (k s : String) (b : Bool)
    (hk : k ∈ reservedKeys)
    (hnd : (wire.map Prod.fst).Nodup) :
    mapLookup k (decodeDoc wire).data = none ∧
    (hasWellTyped "_id" JsonValue.isStr wire = false → (decodeDoc wire).id = "") ∧
    (hasWellTyped "_rev" JsonValue.isStr wire = false → (decodeDoc wire).rev = "") ∧
    (hasWellTyped "_deleted" JsonValue.isBool wire = false →
      (decodeDoc wire).deleted = false) ∧
    (("_id", JsonValue.str s) ∈ wire → (decodeDoc wire).id = s) ∧
    (("_rev", JsonValue.str s) ∈ wire → (decodeDoc wire).rev = s) ∧
    (("_deleted", JsonValue.bool b) ∈ wire → (decodeDoc wire).deleted = b) := by
  refine ⟨?_, ?_, ?_, ?_, ?_, ?_, ?_⟩
  · exact foldl_data_reserved wire _ (by intro k' _; rfl) k hk
  · exact fun h => foldl_id_eq wire _ h
  · exact fun h => foldl_rev_eq wire _ h
  · exact fun h => foldl_deleted_eq wire _ h
  · exact fun h => foldl_id_of_mem wire _ s hnd h
  · exact fun h => foldl_rev_of_mem wire _ s hnd h
  · exact fun h => foldl_deleted_of_mem wire _ b hnd h

/-- A wire payload with one well-typed reserved key, two wrong-typed
reserved keys, and one ordinary field. -/
def mixedWire : List (String × JsonValue) :=
  [("_id", JsonValue.str "W"),
   ("_rev", JsonValue.num 7),
   ("_deleted", JsonValue.str "yes"),
   ("note", JsonValue.null)]

section ParamLemmas

theorem mapLookup_flagSeg_ne (c : Prop) [Decidable c] (name value k : String)
    (h : ¬ name = k) : mapLookup k (flagSeg c name value) = none := by
  unfold flagSeg
  split <;> simp [mapLookup, h]

theorem mapLookup_flagSeg_self (c : Prop) [Decidable c] (name value : String) :
    mapLookup name (flagSeg c name value) = if c then some value else none := by
  unfold flagSeg
  split <;> simp [mapLookup]

theorem mapLookup_optSeg_ne {β : Type} (name : String) (f : β → String)
    (opt : Option β) (k : String) (h : ¬ name = k) :
    mapLookup k (optSeg name f opt) = none := by
  cases opt <;> simp [optSeg, mapLookup, h]

theorem mapLookup_optSeg_self {β : Type} (name : String) (f : β → String)
    (opt : Option β) : mapLookup name (optSeg name f opt) = opt.map f := by
  cases opt <;> simp [optSeg, mapLookup]

/-- The `limit` parameter appears exactly when `Limit > 0`, carrying its
decimal rendering. -/
theorem viewParams_limit (o : ViewOptions) :
    mapLookup "limit" (viewParams o) =
      if 0 < o.limit then some (intStr o.limit) else none := by
  by_cases hl : 0 < o.limit <;>
    simp [viewParams, mapLookup_append, mapLookup_flagSeg_ne,
      mapLookup_optSeg_ne, mapLookup_flagSeg_self, hl]

/-- The `skip` parameter appears exactly when `Skip > 0`. -/
theorem viewParams_skip (o : ViewOptions) :
    mapLookup "skip" (viewParams o) =
      if 0 < o.skip then some (intStr o.skip) else none := by
  by_cases hs : 0 < o.skip <;>
    simp [viewParams, mapLookup_append, mapLookup_flagSeg_ne,
      mapLookup_optSeg_ne, mapLookup_flagSeg_self, hs]

/-- The `descending` parameter appears exactly when `Descending` is true,
always carrying the literal `"true"`. -/
theorem viewParams_descending (o : ViewOptions) :
    mapLookup "descending" (viewParams o) =
      if o.descending = true then some "true" else none := by
  by_cases hd : o.descending = true <;>
    simp [viewParams, mapLookup_append, mapLookup_flagSeg_ne,
      mapLookup_optSeg_ne, mapLookup_flagSeg_self, hd]

/-- The `keys` parameter appears exactly when the `Keys` list is
non-empty, carrying the JSON rendering of the whole list. -/
theorem viewParams_keys (o : ViewOptions) :
    mapLookup "keys" (viewParams o) =
      if 0 < o.keys.length then some (jsonRender (JsonValue.arr o.keys))
      else none := by
  by_cases hk : 0 < o.keys.length <;>
    simp [viewParams, mapLookup_append, mapLookup_flagSeg_ne,
      mapLookup_optSeg_ne, mapLookup_flagSeg_self, hk]

end ParamLemmas

/-- C7: an all-default option set — and likewise a nil options argument —
contributes no query parameters at all to `Database.View`; `Limit = 0`,
`Skip = 0` and `Descending = false` each contribute nothing, while
`Limit > 0` and `Skip > 0` produce their decimal parameters and
`Descending = true` produces the literal `"true"`. -/
theorem claim_C7_zero_value_suppression (dbName designDoc viewName : String)
    (o : ViewOptions) :
    (viewRequest dbName designDoc viewName none).params = [] ∧
    (viewRequest dbName designDoc viewName (some {})).params = [] ∧
    mapLookup "limit" (viewParams o) =
      (if 0 < o.limit then some (intStr o.limit) else none) ∧
    mapLookup "skip" (viewParams o) =
      (if 0 < o.skip then some (intStr o.skip) else none) ∧
    mapLookup "descending" (viewParams o) =
      (if o.descending = true then some "true" else none) :=
  ⟨rfl, rfl, viewParams_limit o, viewParams_skip o, viewParams_descending o⟩

/-- Options carrying only a non-empty plural `Keys` list. -/
def keysOnlyOpts : ViewOptions :=
  { keys := [JsonValue.str "a", JsonValue.str "b"] }

/-- C2, counterexample: `Database.View` given a non-empty `Keys` list
still issues a parameter-only GET request with no body — the list is
encoded into the `keys` query parameter, not a request body. -/
theorem claim_C2_counterexample :
    0 < keysOnlyOpts.keys.length ∧
    (viewRequest "db" "dd" "vw" (some keysOnlyOpts)).method = HttpMethod.GET ∧
    (viewRequest "db" "dd" "vw" (some keysOnlyOpts)).body = none ∧
    mapLookup "keys" (viewRequest "db" "dd" "vw" (some keysOnlyOpts)).params =
      some "[\"a\",\"b\"]" :=
  ⟨by decide, rfl, rfl, rfl⟩

/-- C2, amended: `Database.View` always issues a parameter-only GET
request with no body; a non-empty `Keys` list is encoded as the `keys`
query parameter holding the JSON array (and a single `Key`, even a
one-element array, likewise stays on the GET path). The body-carrying
POST path with body `keys: [...]` is the separate method
`Database.ViewWithKeys`. -/
theorem claim_C2_keys_transport (dbName designDoc viewName : String)
    (o : ViewOptions) (ks : List JsonValue) (opts : Option ViewOptions) :
    (viewRequest dbName designDoc viewName (some o)).method = HttpMethod.GET ∧
    (viewRequest dbName designDoc viewName (some o)).body = none ∧
    mapLookup "keys" (viewRequest dbName designDoc viewName (some o)).params =
      (if 0 < o.keys.length then some (jsonRender (JsonValue.arr o.keys))
       else none) ∧
    (viewWithKeysRequest dbName designDoc viewName ks opts).method =
      HttpMethod.POST ∧
    (viewWithKeysRequest dbName designDoc viewName ks opts).body =
      some (JsonValue.obj [("keys", JsonValue.arr ks)]) :=
  ⟨rfl, rfl, viewParams_keys o, rfl, rfl⟩

/-- C4: the `Database.View` path JSON-encodes structured keys, so the
string key `"5"` and the numeric key `5` yield the distinct wire strings
`"5"`-with-quotes and `5`; but the `Database.AllDocs` path formats
`StartKey`/`EndKey` with `%v`, so both keys collapse to the same wire
string `5` — contradicting the claim for the AllDocs path. -/
theorem claim_C4_key_encoding_divergence :
    jsonRender (JsonValue.str "5") = "\"5\"" ∧
    jsonRender (JsonValue.num 5) = "5" ∧
    jsonRender (JsonValue.str "5") ≠ jsonRender (JsonValue.num 5) ∧
    mapLookup "startkey" (viewParams { startKey := some (JsonValue.str "5") }) =
      some "\"5\"" ∧
    mapLookup "startkey" (viewParams { startKey := some (JsonValue.num 5) }) =
      some "5" ∧
    mapLookup "startkey" (allDocsParams { startKey := some (JsonValue.str "5") }) =
      some "5" ∧
    mapLookup "startkey" (allDocsParams { startKey := some (JsonValue.num 5) }) =
      some "5" :=
  ⟨rfl, rfl, by decide, rfl, rfl, rfl, rfl⟩

/-- C8: `ViewReduce` always forces `Reduce = true`; a non-positive group
level selects plain `Group = true` with `GroupLevel` left at zero, a
positive one sets `GroupLevel` and leaves `Group` unset — never both. -/
theorem claim_C8_view_reduce (gl : Int) :
    (viewReduceOptions gl).reduce = some true ∧
    (gl ≤ 0 → (viewReduceOptions gl).group = true ∧
      (viewReduceOptions gl).groupLevel = 0) ∧
    (0 < gl → (viewReduceOptions gl).groupLevel = gl ∧
      (viewReduceOptions gl).group = false) ∧
    ¬((viewReduceOptions gl).group = true ∧
      0 < (viewReduceOptions gl).groupLevel) := by
  unfold viewReduceOptions
  by_cases h : 0 < gl
  · rw [if_pos h]
    exact ⟨rfl, fun hle => absurd h (not_lt.2 hle), fun _ => ⟨rfl, rfl⟩,
      fun hc => Bool.noConfusion hc.1⟩
  · rw [if_neg h]
    refine ⟨rfl, fun _ => ⟨rfl, rfl⟩, fun hlt => absurd hlt h, fun hc => ?_⟩
    exact absurd hc.2 (by decide)

/-- Witness for C8 at group levels 0 and 2. -/
theorem claim_C8_view_reduce_witness :
    (viewReduceOptions 0).reduce = some true ∧
    (viewReduceOptions 0).group = true ∧
    (viewReduceOptions 0).groupLevel = 0 ∧
    (viewReduceOptions 2).groupLevel = 2 ∧
    (viewReduceOptions 2).group = false :=
  ⟨(claim_C8_view_reduce 0).1,
   ((claim_C8_view_reduce 0).2.1 (by decide)).1,
   ((claim_C8_view_reduce 0).2.1 (by decide)).2,
   ((claim_C8_view_reduce 2).2.2.1 (by decide)).1,
   ((claim_C8_view_reduce 2).2.2.1 (by decide)).2⟩

/-- C10: `Database.Bulk` POSTs a body that is exactly the `docs` array —
`NewEdits` keeps its zero value `false` and `omitempty` drops it, so no
`new_edits` member (of any value) is ever transmitted by a bulk write
through this client. -/
theorem claim_C10_bulk_new_edits (dbName : String) (docs : List JsonValue) :
    (bulkRequest dbName docs).method = HttpMethod.POST ∧
    (bulkRequest dbName docs).params = [] ∧
    (bulkRequest dbName docs).body =
      some (JsonValue.obj [("docs", JsonValue.arr docs)]) :=
  ⟨rfl, rfl, rfl⟩

/-- Witness for C6 at `mixedWire`. -/
theorem claim_C6_reserved_hoisting_witness :
    mapLookup "_rev" (decodeDoc mixedWire).data = none ∧
    (decodeDoc mixedWire).rev = "" ∧
    (decodeDoc mixedWire).deleted = false ∧
    (decodeDoc mixedWire).id = "W" :=
  ⟨(claim_C6_reserved_hoisting mixedWire "_rev" "W" true (by decide)
      (by decide)).1,
   (claim_C6_reserved_hoisting mixedWire "_rev" "W" true (by decide)
      (by decide)).2.2.1 (by decide),
   (claim_C6_reserved_hoisting mixedWire "_rev" "W" true (by decide)
      (by decide)).2.2.2.1 (by decide),
   (claim_C6_reserved_hoisting mixedWire "_rev" "W" true (by decide)
      (by decide)).2.2.2.2.1 (by simp [mixedWire])⟩


set_option maxRecDepth 4096

/-- C9: each `ViewBuilder` configuration method returns the builder
(modelled as the updated builder state, since the Go method returns its
receiver) with exactly one field of its own option set changed, the
design-document and view-name identifiers and every other option field
untouched. -/
theorem claim_C9_builder_frame (vb : ViewBuilder)
    (k sk ek : Option JsonValue) (ks : List JsonValue)
    (n m lvl : Int) (b g r inc : Bool) (st : String) :
    (vb.Key k).designDoc = vb.designDoc ∧
    (vb.Key k).viewName = vb.viewName ∧
    (vb.Key k).options.key = k ∧
    (vb.Key k).options.keys = vb.options.keys ∧
    (vb.Key k).options.startKey = vb.options.startKey ∧
    (vb.Key k).options.endKey = vb.options.endKey ∧
    (vb.Key k).options.startKeyDocID = vb.options.startKeyDocID ∧
    (vb.Key k).options.endKeyDocID = vb.options.endKeyDocID ∧
    (vb.Key k).options.limit = vb.options.limit ∧
    (vb.Key k).options.skip = vb.options.skip ∧
    (vb.Key k).options.descending = vb.options.descending ∧
    (vb.Key k).options.inclusiveEnd = vb.options.inclusiveEnd ∧
    (vb.Key k).options.group = vb.options.group ∧
    (vb.Key k).options.groupLevel = vb.options.groupLevel ∧
    (vb.Key k).options.reduce = vb.options.reduce ∧
    (vb.Key k).options.includeDocs = vb.options.includeDocs ∧
    (vb.Key k).options.updateSeq = vb.options.updateSeq ∧
    (vb.Key k).options.conflicts = vb.options.conflicts ∧
    (vb.Key k).options.attachments = vb.options.attachments ∧
    (vb.Key k).options.attEncodingInfo = vb.options.attEncodingInfo ∧
    (vb.Key k).options.stale = vb.options.stale ∧
    (vb.Key k).options.update = vb.options.update ∧
    (vb.Keys ks).designDoc = vb.designDoc ∧
    (vb.Keys ks).viewName = vb.viewName ∧
    (vb.Keys ks).options.keys = ks ∧
    (vb.Keys ks).options.key = vb.options.key ∧
    (vb.Keys ks).options.startKey = vb.options.startKey ∧
    (vb.Keys ks).options.endKey = vb.options.endKey ∧
    (vb.Keys ks).options.startKeyDocID = vb.options.startKeyDocID ∧
    (vb.Keys ks).options.endKeyDocID = vb.options.endKeyDocID ∧
    (vb.Keys ks).options.limit = vb.options.limit ∧
    (vb.Keys ks).options.skip = vb.options.skip ∧
    (vb.Keys ks).options.descending = vb.options.descending ∧
    (vb.Keys ks).options.inclusiveEnd = vb.options.inclusiveEnd ∧
    (vb.Keys ks).options.group = vb.options.group ∧
    (vb.Keys ks).options.groupLevel = vb.options.groupLevel ∧
    (vb.Keys ks).options.reduce = vb.options.reduce ∧
    (vb.Keys ks).options.includeDocs = vb.options.includeDocs ∧
    (vb.Keys ks).options.updateSeq = vb.options.updateSeq ∧
    (vb.Keys ks).options.conflicts = vb.options.conflicts ∧
    (vb.Keys ks).options.attachments = vb.options.attachments ∧
    (vb.Keys ks).options.attEncodingInfo = vb.options.attEncodingInfo ∧
    (vb.Keys ks).options.stale = vb.options.stale ∧
    (vb.Keys ks).options.update = vb.options.update ∧
    (vb.StartKey sk).designDoc = vb.designDoc ∧
    (vb.StartKey sk).viewName = vb.viewName ∧
    (vb.StartKey sk).options.startKey = sk ∧
    (vb.StartKey sk).options.key = vb.options.key ∧
    (vb.StartKey sk).options.keys = vb.options.keys ∧
    (vb.StartKey sk).options.endKey = vb.options.endKey ∧
    (vb.StartKey sk).options.startKeyDocID = vb.options.startKeyDocID ∧
    (vb.StartKey sk).options.endKeyDocID = vb.options.endKeyDocID ∧
    (vb.StartKey sk).options.limit = vb.options.limit ∧
    (vb.StartKey sk).options.skip = vb.options.skip ∧
    (vb.StartKey sk).options.descending = vb.options.descending ∧
    (vb.StartKey sk).options.inclusiveEnd = vb.options.inclusiveEnd ∧
    (vb.StartKey sk).options.group = vb.options.group ∧
    (vb.StartKey sk).options.groupLevel = vb.options.groupLevel ∧
    (vb.StartKey sk).options.reduce = vb.options.reduce ∧
    (vb.StartKey sk).options.includeDocs = vb.options.includeDocs ∧
    (vb.StartKey sk).options.updateSeq = vb.options.updateSeq ∧
    (vb.StartKey sk).options.conflicts = vb.options.conflicts ∧
    (vb.StartKey sk).options.attachments = vb.options.attachments ∧
    (vb.StartKey sk).options.attEncodingInfo = vb.options.attEncodingInfo ∧
    (vb.StartKey sk).options.stale = vb.options.stale ∧
    (vb.StartKey sk).options.update = vb.options.update ∧
    (vb.EndKey ek).designDoc = vb.designDoc ∧
    (vb.EndKey ek).viewName = vb.viewName ∧
    (vb.EndKey ek).options.endKey = ek ∧
    (vb.EndKey ek).options.key = vb.options.key ∧
    (vb.EndKey ek).options.keys = vb.options.keys ∧
    (vb.EndKey ek).options.startKey = vb.options.startKey ∧
    (vb.EndKey ek).options.startKeyDocID = vb.options.startKeyDocID ∧
    (vb.EndKey ek).options.endKeyDocID = vb.options.endKeyDocID ∧
    (vb.EndKey ek).options.limit = vb.options.limit ∧
    (vb.EndKey ek).options.skip = vb.options.skip ∧
    (vb.EndKey ek).options.descending = vb.options.descending ∧
    (vb.EndKey ek).options.inclusiveEnd = vb.options.inclusiveEnd ∧
    (vb.EndKey ek).options.group = vb.options.group ∧
    (vb.EndKey ek).options.groupLevel = vb.options.groupLevel ∧
    (vb.EndKey ek).options.reduce = vb.options.reduce ∧
    (vb.EndKey ek).options.includeDocs = vb.options.includeDocs ∧
    (vb.EndKey ek).options.updateSeq = vb.options.updateSeq ∧
    (vb.EndKey ek).options.conflicts = vb.options.conflicts ∧
    (vb.EndKey ek).options.attachments = vb.options.attachments ∧
    (vb.EndKey ek).options.attEncodingInfo = vb.options.attEncodingInfo ∧
    (vb.EndKey ek).options.stale = vb.options.stale ∧
    (vb.EndKey ek).options.update = vb.options.update ∧
    (vb.Limit n).designDoc = vb.designDoc ∧
    (vb.Limit n).viewName = vb.viewName ∧
    (vb.Limit n).options.limit = n ∧
    (vb.Limit n).options.key = vb.options.key ∧
    (vb.Limit n).options.keys = vb.options.keys ∧
    (vb.Limit n).options.startKey = vb.options.startKey ∧
    (vb.Limit n).options.endKey = vb.options.endKey ∧
    (vb.Limit n).options.startKeyDocID = vb.options.startKeyDocID ∧
    (vb.Limit n).options.endKeyDocID = vb.options.endKeyDocID ∧
    (vb.Limit n).options.skip = vb.options.skip ∧
    (vb.Limit n).options.descending = vb.options.descending ∧
    (vb.Limit n).options.inclusiveEnd = vb.options.inclusiveEnd ∧
    (vb.Limit n).options.group = vb.options.group ∧
    (vb.Limit n).options.groupLevel = vb.options.groupLevel ∧
    (vb.Limit n).options.reduce = vb.options.reduce ∧
    (vb.Limit n).options.includeDocs = vb.options.includeDocs ∧
    (vb.Limit n).options.updateSeq = vb.options.updateSeq ∧
    (vb.Limit n).options.conflicts = vb.options.conflicts ∧
    (vb.Limit n).options.attachments = vb.options.attachments ∧
    (vb.Limit n).options.attEncodingInfo = vb.options.attEncodingInfo ∧
    (vb.Limit n).options.stale = vb.options.stale ∧
    (vb.Limit n).options.update = vb.options.update ∧
    (vb.Skip m).designDoc = vb.designDoc ∧
    (vb.Skip m).viewName = vb.viewName ∧
    (vb.Skip m).options.skip = m ∧
    (vb.Skip m).options.key = vb.options.key ∧
    (vb.Skip m).options.keys = vb.options.keys ∧
    (vb.Skip m).options.startKey = vb.options.startKey ∧
    (vb.Skip m).options.endKey = vb.options.endKey ∧
    (vb.Skip m).options.startKeyDocID = vb.options.startKeyDocID ∧
    (vb.Skip m).options.endKeyDocID = vb.options.endKeyDocID ∧
    (vb.Skip m).options.limit = vb.options.limit ∧
    (vb.Skip m).options.descending = vb.options.descending ∧
    (vb.Skip m).options.inclusiveEnd = vb.options.inclusiveEnd ∧
    (vb.Skip m).options.group = vb.options.group ∧
    (vb.Skip m).options.groupLevel = vb.options.groupLevel ∧
    (vb.Skip m).options.reduce = vb.options.reduce ∧
    (vb.Skip m).options.includeDocs = vb.options.includeDocs ∧
    (vb.Skip m).options.updateSeq = vb.options.updateSeq ∧
    (vb.Skip m).options.conflicts = vb.options.conflicts ∧
    (vb.Skip m).options.attachments = vb.options.attachments ∧
    (vb.Skip m).options.attEncodingInfo = vb.options.attEncodingInfo ∧
    (vb.Skip m).options.stale = vb.options.stale ∧
    (vb.Skip m).options.update = vb.options.update ∧
    (vb.Descending b).designDoc = vb.designDoc ∧
    (vb.Descending b).viewName = vb.viewName ∧
    (vb.Descending b).options.descending = b ∧
    (vb.Descending b).options.key = vb.options.key ∧
    (vb.Descending b).options.keys = vb.options.keys ∧
    (vb.Descending b).options.startKey = vb.options.startKey ∧
    (vb.Descending b).options.endKey = vb.options.endKey ∧
    (vb.Descending b).options.startKeyDocID = vb.options.startKeyDocID ∧
    (vb.Descending b).options.endKeyDocID = vb.options.endKeyDocID ∧
    (vb.Descending b).options.limit = vb.options.limit ∧
    (vb.Descending b).options.skip = vb.options.skip ∧
    (vb.Descending b).options.inclusiveEnd = vb.options.inclusiveEnd ∧
    (vb.Descending b).options.group = vb.options.group ∧
    (vb.Descending b).options.groupLevel = vb.options.groupLevel ∧
    (vb.Descending b).options.reduce = vb.options.reduce ∧
    (vb.Descending b).options.includeDocs = vb.options.includeDocs ∧
    (vb.Descending b).options.updateSeq = vb.options.updateSeq ∧
    (vb.Descending b).options.conflicts = vb.options.conflicts ∧
    (vb.Descending b).options.attachments = vb.options.attachments ∧
    (vb.Descending b).options.attEncodingInfo = vb.options.attEncodingInfo ∧
    (vb.Descending b).options.stale = vb.options.stale ∧
    (vb.Descending b).options.update = vb.options.update ∧
    (vb.Group g).designDoc = vb.designDoc ∧
    (vb.Group g).viewName = vb.viewName ∧
    (vb.Group g).options.group = g ∧
    (vb.Group g).options.key = vb.options.key ∧
    (vb.Group g).options.keys = vb.options.keys ∧
    (vb.Group g).options.startKey = vb.options.startKey ∧
    (vb.Group g).options.endKey = vb.options.endKey ∧
    (vb.Group g).options.startKeyDocID = vb.options.startKeyDocID ∧
    (vb.Group g).options.endKeyDocID = vb.options.endKeyDocID ∧
    (vb.Group g).options.limit = vb.options.limit ∧
    (vb.Group g).options.skip = vb.options.skip ∧
    (vb.Group g).options.descending = vb.options.descending ∧
    (vb.Group g).options.inclusiveEnd = vb.options.inclusiveEnd ∧
    (vb.Group g).options.groupLevel = vb.options.groupLevel ∧
    (vb.Group g).options.reduce = vb.options.reduce ∧
    (vb.Group g).options.includeDocs = vb.options.includeDocs ∧
    (vb.Group g).options.updateSeq = vb.options.updateSeq ∧
    (vb.Group g).options.conflicts = vb.options.conflicts ∧
    (vb.Group g).options.attachments = vb.options.attachments ∧
    (vb.Group g).options.attEncodingInfo = vb.options.attEncodingInfo ∧
    (vb.Group g).options.stale = vb.options.stale ∧
    (vb.Group g).options.update = vb.options.update ∧
    (vb.GroupLevel lvl).designDoc = vb.designDoc ∧
    (vb.GroupLevel lvl).viewName = vb.viewName ∧
    (vb.GroupLevel lvl).options.groupLevel = lvl ∧
    (vb.GroupLevel lvl).options.key = vb.options.key ∧
    (vb.GroupLevel lvl).options.keys = vb.options.keys ∧
    (vb.GroupLevel lvl).options.startKey = vb.options.startKey ∧
    (vb.GroupLevel lvl).options.endKey = vb.options.endKey ∧
    (vb.GroupLevel lvl).options.startKeyDocID = vb.options.startKeyDocID ∧
    (vb.GroupLevel lvl).options.endKeyDocID = vb.options.endKeyDocID ∧
    (vb.GroupLevel lvl).options.limit = vb.options.limit ∧
    (vb.GroupLevel lvl).options.skip = vb.options.skip ∧
    (vb.GroupLevel lvl).options.descending = vb.options.descending ∧
    (vb.GroupLevel lvl).options.inclusiveEnd = vb.options.inclusiveEnd ∧
    (vb.GroupLevel lvl).options.group = vb.options.group ∧
    (vb.GroupLevel lvl).options.reduce = vb.options.reduce ∧
    (vb.GroupLevel lvl).options.includeDocs = vb.options.includeDocs ∧
    (vb.GroupLevel lvl).options.updateSeq = vb.options.updateSeq ∧
    (vb.GroupLevel lvl).options.conflicts = vb.options.conflicts ∧
    (vb.GroupLevel lvl).options.attachments = vb.options.attachments ∧
    (vb.GroupLevel lvl).options.attEncodingInfo = vb.options.attEncodingInfo ∧
    (vb.GroupLevel lvl).options.stale = vb.options.stale ∧
    (vb.GroupLevel lvl).options.update = vb.options.update ∧
    (vb.Reduce r).designDoc = vb.designDoc ∧
    (vb.Reduce r).viewName = vb.viewName ∧
    (vb.Reduce r).options.reduce = some r ∧
    (vb.Reduce r).options.key = vb.options.key ∧
    (vb.Reduce r).options.keys = vb.options.keys ∧
    (vb.Reduce r).options.startKey = vb.options.startKey ∧
    (vb.Reduce r).options.endKey = vb.options.endKey ∧
    (vb.Reduce r).options.startKeyDocID = vb.options.startKeyDocID ∧
    (vb.Reduce r).options.endKeyDocID = vb.options.endKeyDocID ∧
    (vb.Reduce r).options.limit = vb.options.limit ∧
    (vb.Reduce r).options.skip = vb.options.skip ∧
    (vb.Reduce r).options.descending = vb.options.descending ∧
    (vb.Reduce r).options.inclusiveEnd = vb.options.inclusiveEnd ∧
    (vb.Reduce r).options.group = vb.options.group ∧
    (vb.Reduce r).options.groupLevel = vb.options.groupLevel ∧
    (vb.Reduce r).options.includeDocs = vb.options.includeDocs ∧
    (vb.Reduce r).options.updateSeq = vb.options.updateSeq ∧
    (vb.Reduce r).options.conflicts = vb.options.conflicts ∧
    (vb.Reduce r).options.attachments = vb.options.attachments ∧
    (vb.Reduce r).options.attEncodingInfo = vb.options.attEncodingInfo ∧
    (vb.Reduce r).options.stale = vb.options.stale ∧
    (vb.Reduce r).options.update = vb.options.update ∧
    (vb.IncludeDocs inc).designDoc = vb.designDoc ∧
    (vb.IncludeDocs inc).viewName = vb.viewName ∧
    (vb.IncludeDocs inc).options.includeDocs = inc ∧
    (vb.IncludeDocs inc).options.key = vb.options.key ∧
    (vb.IncludeDocs inc).options.keys = vb.options.keys ∧
    (vb.IncludeDocs inc).options.startKey = vb.options.startKey ∧
    (vb.IncludeDocs inc).options.endKey = vb.options.endKey ∧
    (vb.IncludeDocs inc).options.startKeyDocID = vb.options.startKeyDocID ∧
    (vb.IncludeDocs inc).options.endKeyDocID = vb.options.endKeyDocID ∧
    (vb.IncludeDocs inc).options.limit = vb.options.limit ∧
    (vb.IncludeDocs inc).options.skip = vb.options.skip ∧
    (vb.IncludeDocs inc).options.descending = vb.options.descending ∧
    (vb.IncludeDocs inc).options.inclusiveEnd = vb.options.inclusiveEnd ∧
    (vb.IncludeDocs inc).options.group = vb.options.group ∧
    (vb.IncludeDocs inc).options.groupLevel = vb.options.groupLevel ∧
    (vb.IncludeDocs inc).options.reduce = vb.options.reduce ∧
    (vb.IncludeDocs inc).options.updateSeq = vb.options.updateSeq ∧
    (vb.IncludeDocs inc).options.conflicts = vb.options.conflicts ∧
    (vb.IncludeDocs inc).options.attachments = vb.options.attachments ∧
    (vb.IncludeDocs inc).options.attEncodingInfo = vb.options.attEncodingInfo ∧
    (vb.IncludeDocs inc).options.stale = vb.options.stale ∧
    (vb.IncludeDocs inc).options.update = vb.options.update ∧
    (vb.Stale st).designDoc = vb.designDoc ∧
    (vb.Stale st).viewName = vb.viewName ∧
    (vb.Stale st).options.stale = st ∧
    (vb.Stale st).options.key = vb.options.key ∧
    (vb.Stale st).options.keys = vb.options.keys ∧
    (vb.Stale st).options.startKey = vb.options.startKey ∧
    (vb.Stale st).options.endKey = vb.options.endKey ∧
    (vb.Stale st).options.startKeyDocID = vb.options.startKeyDocID ∧
    (vb.Stale st).options.endKeyDocID = vb.options.endKeyDocID ∧
    (vb.Stale st).options.limit = vb.options.limit ∧
    (vb.Stale st).options.skip = vb.options.skip ∧
    (vb.Stale st).options.descending = vb.options.descending ∧
    (vb.Stale st).options.inclusiveEnd = vb.options.inclusiveEnd ∧
    (vb.Stale st).options.group = vb.options.group ∧
    (vb.Stale st).options.groupLevel = vb.options.groupLevel ∧
    (vb.Stale st).options.reduce = vb.options.reduce ∧
    (vb.Stale st).options.includeDocs = vb.options.includeDocs ∧
    (vb.Stale st).options.updateSeq = vb.options.updateSeq ∧
    (vb.Stale st).options.conflicts = vb.options.conflicts ∧
    (vb.Stale st).options.attachments = vb.options.attachments ∧
    (vb.Stale st).options.attEncodingInfo = vb.options.attEncodingInfo ∧
    (vb.Stale st).options.update = vb.options.update :=
  ⟨rfl, rfl, rfl, rfl, rfl, rfl, rfl, rfl, rfl, rfl, rfl, rfl, rfl, rfl, rfl, rfl, rfl, rfl, rfl, rfl, rfl, rfl, rfl, rfl, rfl, rfl, rfl, rfl, rfl, rfl, rfl, rfl, rfl, rfl, rfl, rfl, rfl, rfl, rfl, rfl, rfl, rfl, rfl, rfl, rfl, rfl, rfl, rfl, rfl, rfl, rfl, rfl, rfl, rfl, rfl, rfl, rfl, rfl, rfl, rfl, rfl, rfl, rfl, rfl, rfl, rfl, rfl, rfl, rfl, rfl, rfl, rfl, rfl, rfl, rfl, rfl, rfl, rfl, rfl, rfl, rfl, rfl, rfl, rfl, rfl, rfl, rfl, rfl, rfl, rfl, rfl, rfl, rfl, rfl, rfl, rfl, rfl, rfl, rfl, rfl, rfl, rfl, rfl, rfl, rfl, rfl, rfl, rfl, rfl, rfl, rfl, rfl, rfl, rfl, rfl, rfl, rfl, rfl, rfl, rfl, rfl, rfl, rfl, rfl, rfl, rfl, rfl, rfl, rfl, rfl, rfl, rfl, rfl, rfl, rfl, rfl, rfl, rfl, rfl, rfl, rfl, rfl, rfl, rfl, rfl, rfl, rfl, rfl, rfl, rfl, rfl, rfl, rfl, rfl, rfl, rfl, rfl, rfl, rfl, rfl, rfl, rfl, rfl, rfl, rfl, rfl, rfl, rfl, rfl, rfl, rfl, rfl, rfl, rfl, rfl, rfl, rfl, rfl, rfl, rfl, rfl, rfl, rfl, rfl, rfl, rfl, rfl, rfl, rfl, rfl, rfl, rfl, rfl, rfl, rfl, rfl, rfl, rfl, rfl, rfl, rfl, rfl, rfl, rfl, rfl, rfl, rfl, rfl, rfl, rfl, rfl, rfl, rfl, rfl, rfl, rfl, rfl, rfl, rfl, rfl, rfl, rfl, rfl, rfl, rfl, rfl, rfl, rfl, rfl, rfl, rfl, rfl, rfl, rfl, rfl, rfl, rfl, rfl, rfl, rfl, rfl, rfl, rfl, rfl, rfl, rfl, rfl, rfl, rfl, rfl, rfl, rfl, rfl, rfl, rfl, rfl, rfl, rfl, rfl, rfl, rfl, rfl, rfl, rfl⟩

end CouchDBSpec
